import Mathlib

/-!
Verification of the USAJobs ETL pipeline (src/etl.py).

The development shallowly embeds the pipeline: the listing transformer
(USAJobsETL.parse_job_listing), the persistence gateway upsert
(USAJobsETL.upsert_job, via the semantics of its INSERT ... ON CONFLICT
statement), the fetch client retry loop
(USAJobsETL.fetch_jobs_from_api_with_retry), the orchestrator
(USAJobsETL.run) and the process entry point (main).  External effects
(HTTP responses, store level errors) are supplied by an environment of
oracles; machine floats are modelled by rationals with an explicit
decimal-string parser standing in for the Python float() builtin.
-/

namespace UsaJobs

/-! ## String helpers

Python substring membership (the expression pat in s) and str.lower,
modelled over character lists. -/

/-- startsWith p s is true when p is an initial segment of s. -/
def startsWith : List Char → List Char → Bool
  | [], _ => true
  | _ :: _, [] => false
  | p :: ps, c :: cs => p == c && startsWith ps cs

/-- hasSubstr pat s is true when pat occurs contiguously inside s. -/
def hasSubstr (pat : List Char) : List Char → Bool
  | [] => pat.isEmpty
  | c :: cs => startsWith pat (c :: cs) || hasSubstr pat cs

/-- strContains s pat models the Python expression pat in s. -/
def strContains (s pat : String) : Bool :=
  hasSubstr pat.data s.data

/-- lowerChar lowercases one ASCII letter, as Python str.lower does on the
characters appearing here. -/
def lowerChar (c : Char) : Char :=
  if 'A' ≤ c ∧ c ≤ 'Z' then Char.ofNat (c.toNat + 32) else c

/-- lower models Python str.lower for the ASCII range used here. -/
def lower (s : String) : String :=
  String.mk (s.data.map lowerChar)

/-! ## Decimal parsing

A stand-in for the Python float() builtin on JSON values, restricted to
plain decimal literals (optional sign, digits, optional fractional part);
any other string is treated as the ValueError path. -/

/-- digitsVal reads a digit list as a natural number, most significant first. -/
def digitsVal (cs : List Char) : Nat :=
  cs.foldl (fun a c => a * 10 + (c.toNat - 48)) 0

/-- splitOnChar sep cs splits cs at every occurrence of sep. -/
def splitOnChar (sep : Char) (cs : List Char) : List (List Char) :=
  cs.foldr
    (fun c acc =>
      match acc with
      | [] => [[c]]
      | a :: rest => if c == sep then [] :: a :: rest else (c :: a) :: rest)
    [[]]

/-- isSpaceChar recognises the whitespace stripped by float(). -/
def isSpaceChar (c : Char) : Bool :=
  c == ' ' || c == '\t' || c == '\n' || c == '\r'

/-- pyStrip drops surrounding whitespace as float() does. -/
def pyStrip (cs : List Char) : List Char :=
  ((cs.dropWhile isSpaceChar).reverse.dropWhile isSpaceChar).reverse

/-- parseUnsignedDec parses digits with an optional single decimal point. -/
def parseUnsignedDec (cs : List Char) : Option Rat :=
  match splitOnChar '.' cs with
  | [ip] =>
      if ip ≠ [] ∧ ip.all Char.isDigit then some ((digitsVal ip : Nat) : Rat)
      else none
  | [ip, fp] =>
      if (ip ≠ [] ∨ fp ≠ []) ∧ ip.all Char.isDigit ∧ fp.all Char.isDigit then
        some ((digitsVal ip : Nat) + ((digitsVal fp : Nat) : Rat) / ((10 : Rat) ^ fp.length))
      else none
  | _ => none

/-- parseDecimal models float() applied to a string: optional surrounding
whitespace and sign, then a decimal literal; none models ValueError. -/
def parseDecimal (s : String) : Option Rat :=
  match pyStrip s.data with
  | '-' :: rest => (parseUnsignedDec rest).map (fun q => -q)
  | '+' :: rest => parseUnsignedDec rest
  | t => parseUnsignedDec t

/-- ratTrunc truncates a rational toward zero, as Python int() does on a float. -/
def ratTrunc (q : Rat) : Int :=
  Int.tdiv q.num (q.den : Int)

/-! ## Raw API data model

The shapes of the JSON values that parse_job_listing reads.  Absent and
null fields are merged into none; dictionary fields not read by the code
are summarised by an extra flag where only dict truthiness matters. -/

/-- Location is one entry of the PositionLocation array. -/
structure Location where
  cityName : Option String
  locationName : Option String
  countrySubDivisionCode : Option String
  deriving DecidableEq, Repr

/-- RangeField is the JSON value found under MinimumRange / MaximumRange. -/
inductive RangeField where
  /-- a JSON string, to be parsed by float() -/
  | str (s : String)
  /-- a JSON number -/
  | num (q : Rat)
  /-- a JSON null or any value on which float() raises TypeError -/
  | null
  deriving DecidableEq, Repr

/-- Remuneration is one entry of the PositionRemuneration array. -/
structure Remuneration where
  minimumRange : Option RangeField
  maximumRange : Option RangeField
  rateIntervalCode : Option String
  /-- extra records whether the dict carries keys beyond the three above,
  so that Python dict truthiness is representable. -/
  extra : Bool
  deriving DecidableEq, Repr

/-- truthy models Python truthiness of a remuneration dict (non-empty). -/
def Remuneration.truthy (r : Remuneration) : Bool :=
  r.minimumRange.isSome || r.maximumRange.isSome || r.rateIntervalCode.isSome || r.extra

/-- UserAreaDetails holds the JobSummary field of UserArea.Details. -/
structure UserAreaDetails where
  jobSummary : Option String
  deriving DecidableEq, Repr

/-- UserArea is the descriptor's UserArea object. -/
structure UserArea where
  details : Option UserAreaDetails
  deriving DecidableEq, Repr

/-- Descriptor is the MatchedObjectDescriptor object. -/
structure Descriptor where
  positionTitle : Option String
  positionURI : Option String
  positionLocation : List Location
  positionLocationDisplay : Option String
  positionRemuneration : List Remuneration
  organizationName : Option String
  departmentName : Option String
  positionStartDate : Option String
  positionEndDate : Option String
  publicationStartDate : Option String
  applicationCloseDate : Option String
  userArea : Option UserArea
  jobCategory : List String
  jobGrade : List String
  deriving DecidableEq, Repr

/-- Descriptor.empty is the default {} used when MatchedObjectDescriptor is absent. -/
def Descriptor.empty : Descriptor :=
  ⟨none, none, [], none, [], none, none, none, none, none, none, none, [], []⟩

/-- JobItem is one element of SearchResult.SearchResultItems. -/
structure JobItem where
  matchedObjectId : Option String
  matchedObjectDescriptor : Option Descriptor
  deriving DecidableEq, Repr

/-! ## Listing transformer (USAJobsETL.parse_job_listing) -/

/-- locationMatches target loc models the loop body test
(target in city_name or target in location_name), where city_name and
location_name have already been lowercased; the source calls it with the
literal lowercase target chicago. -/
def locationMatches (target : String) (loc : Location) : Bool :=
  strContains (lower (loc.cityName.getD "")) target ||
    strContains (lower (loc.locationName.getD "")) target

/-- findChicago models the scan loop of parse_job_listing: the first
location whose city or location name contains chicago, else none. -/
def findChicago : List Location → Option Location
  | [] => none
  | loc :: rest =>
      if locationMatches "chicago" loc then some loc else findChicago rest

/-- pyFloatInt models int(float(d.get(key, 0))): a missing field defaults
to 0; none models a raised ValueError / TypeError. -/
def pyFloatInt : Option RangeField → Option Int
  | none => some 0
  | some (RangeField.str s) => (parseDecimal s).map ratTrunc
  | some (RangeField.num q) => some (ratTrunc q)
  | some RangeField.null => none

/-- salaryOf models lines 175-182 of etl.py: both salaries start at None;
if the first remuneration dict is truthy, the minimum is assigned first and
the maximum second, and an exception in either assignment is swallowed,
leaving the not-yet-assigned fields at None. -/
def salaryOf : Option Remuneration → Option Int × Option Int
  | none => (none, none)
  | some r =>
      if r.truthy then
        match pyFloatInt r.minimumRange with
        | none => (none, none)
        | some mn =>
            match pyFloatInt r.maximumRange with
            | none => (some mn, none)
            | some mx => (some mn, some mx)
      else (none, none)

/-- parse_date models the inner helper of parse_job_listing: an empty or
absent string yields None, otherwise the part before the first T. -/
def parse_date : Option String → Option String
  | none => none
  | some s =>
      if s = "" then none
      else if strContains s "T" then
        some (String.mk (s.data.takeWhile (fun c => !(c == 'T'))))
      else some s

/-- jobSummaryOf models
descriptor.get(UserArea, {}).get(Details, {}).get(JobSummary, m) guarded by
the truthiness of UserArea. -/
def jobSummaryOf : Option UserArea → String
  | none => ""
  | some u => (((u.details.getD ⟨none⟩).jobSummary).getD "")

/-- ParsedJob is the dict returned by parse_job_listing. -/
structure ParsedJob where
  position_id : Option String
  position_title : Option String
  position_uri : Option String
  position_location : List Location
  city_name : String
  state_code : String
  organization_name : Option String
  department_name : Option String
  position_remuneration : List Remuneration
  min_salary : Option Int
  max_salary : Option Int
  position_start_date : Option String
  position_end_date : Option String
  publication_start_date : Option String
  application_close_date : Option String
  job_summary : String
  job_category : List String
  job_grade : List String
  deriving DecidableEq, Repr

/-- mkParsedJob assembles the returned dict from the job item, its
descriptor and the selected chicago location, as lines 194-213 do. -/
def mkParsedJob (job_item : JobItem) (descriptor : Descriptor)
    (chicago_location : Location) : ParsedJob :=
  { position_id := job_item.matchedObjectId
    position_title := descriptor.positionTitle
    position_uri := descriptor.positionURI
    position_location := [chicago_location]
    city_name := chicago_location.cityName.getD "Chicago"
    state_code := chicago_location.countrySubDivisionCode.getD "Illinois"
    organization_name := descriptor.organizationName
    department_name := descriptor.departmentName
    position_remuneration := descriptor.positionRemuneration
    min_salary := (salaryOf descriptor.positionRemuneration.head?).1
    max_salary := (salaryOf descriptor.positionRemuneration.head?).2
    position_start_date := parse_date descriptor.positionStartDate
    position_end_date := parse_date descriptor.positionEndDate
    publication_start_date := parse_date descriptor.publicationStartDate
    application_close_date := parse_date descriptor.applicationCloseDate
    job_summary := jobSummaryOf descriptor.userArea
    job_category := descriptor.jobCategory
    job_grade := descriptor.jobGrade }

/-- parse_job_listing models USAJobsETL.parse_job_listing: None both when
the location list is empty and when no location mentions chicago. -/
def parse_job_listing (job_item : JobItem) : Option ParsedJob :=
  if (job_item.matchedObjectDescriptor.getD Descriptor.empty).positionLocation.isEmpty then
    none
  else
    match findChicago (job_item.matchedObjectDescriptor.getD Descriptor.empty).positionLocation with
    | none => none
    | some chicago_location =>
        some (mkParsedJob job_item (job_item.matchedObjectDescriptor.getD Descriptor.empty)
          chicago_location)

/-! ## Persistence gateway (USAJobsETL.upsert_job)

The job_listings table is a list of rows; the INSERT ... ON CONFLICT
(position_id) DO UPDATE statement of upsert_job is given its standard
relational semantics over that list.  CURRENT_TIMESTAMP is an explicit
now argument. -/

/-- Row is one persisted job_listings row. -/
structure Row where
  position_id : String
  position_title : Option String
  position_uri : Option String
  position_location : List Location
  city_name : String
  state_code : String
  organization_name : Option String
  department_name : Option String
  position_remuneration : List Remuneration
  min_salary : Option Int
  max_salary : Option Int
  position_start_date : Option String
  position_end_date : Option String
  publication_start_date : Option String
  application_close_date : Option String
  job_summary : String
  job_category : List String
  job_grade : List String
  created_at : Nat
  updated_at : Nat
  etl_timestamp : Nat
  deriving DecidableEq, Repr

/-- rowOfJob is the freshly inserted row: every column from the VALUES
list, with the housekeeping timestamps set to now. -/
def rowOfJob (j : ParsedJob) (pid : String) (now : Nat) : Row :=
  { position_id := pid
    position_title := j.position_title
    position_uri := j.position_uri
    position_location := j.position_location
    city_name := j.city_name
    state_code := j.state_code
    organization_name := j.organization_name
    department_name := j.department_name
    position_remuneration := j.position_remuneration
    min_salary := j.min_salary
    max_salary := j.max_salary
    position_start_date := j.position_start_date
    position_end_date := j.position_end_date
    publication_start_date := j.publication_start_date
    application_close_date := j.application_close_date
    job_summary := j.job_summary
    job_category := j.job_category
    job_grade := j.job_grade
    created_at := now
    updated_at := now
    etl_timestamp := now }

/-- applyConflictUpdate is the DO UPDATE SET clause of upsert_job: exactly
the nine listed columns are overwritten from EXCLUDED and the two
housekeeping timestamps refreshed; every other column keeps its stored
value. -/
def applyConflictUpdate (old : Row) (j : ParsedJob) (now : Nat) : Row :=
  { old with
    position_title := j.position_title
    position_uri := j.position_uri
    position_location := j.position_location
    city_name := j.city_name
    state_code := j.state_code
    min_salary := j.min_salary
    max_salary := j.max_salary
    application_close_date := j.application_close_date
    updated_at := now
    etl_timestamp := now }

/-- upsertTable executes the upsert statement on the table: update in
place on a position_id conflict, append otherwise. -/
def upsertTable (tbl : List Row) (j : ParsedJob) (pid : String) (now : Nat) : List Row :=
  if tbl.any (fun r => r.position_id == pid) then
    tbl.map (fun r => if r.position_id == pid then applyConflictUpdate r j now else r)
  else
    tbl ++ [rowOfJob j pid now]

/-! ## Fetch client (USAJobsETL.fetch_jobs_from_api_with_retry)

The HTTP transport is an oracle mapping the attempt index to an outcome;
the loop body distinguishes status 429, success and a raised
RequestException exactly as lines 95-125 do.  Sleeps are recorded as a
list of rational delays (the MIN_REQUEST_INTERVAL sleep after a success is
not part of the backoff schedule and is not recorded). -/

/-- ApiResponse is the parsed SearchResult content of a successful response. -/
structure ApiResponse where
  searchResultItems : List JobItem
  searchResultCountAll : Nat
  deriving DecidableEq, Repr

/-- HttpOutcome is the observable outcome of one HTTP attempt. -/
inductive HttpOutcome where
  /-- status code 429 -/
  | rateLimited
  /-- a 2xx response with the parsed body -/
  | success (body : ApiResponse)
  /-- a raised requests.exceptions.RequestException, including the
  raise_for_status path for other error statuses -/
  | transportError
  deriving DecidableEq, Repr

/-- Config carries the Config class constants used by the pipeline. -/
structure Config where
  maxRetries : Nat
  initialRetryDelay : Rat
  maxRetryDelay : Rat
  dryRunMode : Bool

/-- rateLimitWait is the wait computed on a 429 response (line 106). -/
def rateLimitWait (cfg : Config) (attempt : Nat) : Rat :=
  min (cfg.initialRetryDelay * 2 ^ attempt) cfg.maxRetryDelay

/-- apiErrorWait is the wait computed on a RequestException (line 121). -/
def apiErrorWait (cfg : Config) (attempt : Nat) : Rat :=
  min (cfg.initialRetryDelay * 2 ^ attempt) cfg.maxRetryDelay

/-- FetchTrace is the observable behaviour of one fetch call: the returned
body if any, the backoff sleeps performed, and the attempts consumed. -/
structure FetchTrace where
  result : Option ApiResponse
  delays : List Rat
  attempts : Nat
  deriving DecidableEq, Repr

/-- fetchAux runs the for-attempt loop from the given attempt index with
the given number of loop iterations remaining (maxRetries - attempt). -/
def fetchAux (cfg : Config) (oracle : Nat → HttpOutcome) (attempt : Nat) :
    Nat → FetchTrace
  | 0 => ⟨none, [], 0⟩
  | fuel + 1 =>
      match oracle attempt with
      | HttpOutcome.success body => ⟨some body, [], 1⟩
      | HttpOutcome.rateLimited =>
          let w := rateLimitWait cfg attempt
          let rest := fetchAux cfg oracle (attempt + 1) fuel
          ⟨rest.result, w :: rest.delays, rest.attempts + 1⟩
      | HttpOutcome.transportError =>
          if fuel = 0 then ⟨none, [], 1⟩
          else
            let w := apiErrorWait cfg attempt
            let rest := fetchAux cfg oracle (attempt + 1) fuel
            ⟨rest.result, w :: rest.delays, rest.attempts + 1⟩

/-- fetch_jobs_from_api_with_retry models the whole retry loop for one
page; the page's transport behaviour is the oracle. -/
def fetch_jobs_from_api_with_retry (cfg : Config) (oracle : Nat → HttpOutcome) :
    FetchTrace :=
  fetchAux cfg oracle 0 cfg.maxRetries

/-! ## Pipeline orchestrator (USAJobsETL.run)

The run is driven by an environment: per-page HTTP oracles feeding the
fetch client, and a store-error oracle deciding whether the n-th upsert
call raises (upsert_job then returns False and leaves the table
unchanged).  Timestamps for CURRENT_TIMESTAMP are taken from the running
upsert-call counter. -/

/-- Stats is the stats dict of USAJobsETL.run. -/
structure Stats where
  processed : Nat
  inserted : Nat
  updated : Nat
  failed : Nat
  skipped_non_chicago : Nat
  error_message : Option String
  deriving DecidableEq, Repr

/-- Stats.init is the dict literal at the top of run. -/
def Stats.init : Stats :=
  ⟨0, 0, 0, 0, 0, none⟩

/-- EtlRunRow is one row of the etl_runs audit table as written by
log_etl_run. -/
structure EtlRunRow where
  records_processed : Nat
  records_inserted : Nat
  records_updated : Nat
  records_failed : Nat
  status : String
  error_message : Option String
  deriving DecidableEq, Repr

/-- Env supplies every external effect of one run. -/
structure Env where
  /-- http page attempt is the transport outcome of the given attempt of
  the fetch for the given page -/
  http : Nat → Nat → HttpOutcome
  /-- upsertFails n decides whether the n-th upsert call (0-based) hits a
  store-level error -/
  upsertFails : Nat → Bool
  /-- initTable is the job_listings table before the run -/
  initTable : List Row
  /-- initEtlRuns is the etl_runs table before the run -/
  initEtlRuns : List EtlRunRow

/-- RunState carries the orchestrator's mutable state: the stats dict, the
chicago_jobs and total_jobs counters, the store tables and the number of
upsert calls issued so far. -/
structure RunState where
  stats : Stats
  chicago_jobs : Nat
  total_jobs : Nat
  table : List Row
  etlRuns : List EtlRunRow
  upsertCalls : Nat
  deriving Repr

/-- initRunState is the orchestrator state on entry to the paging loop. -/
def initRunState (env : Env) : RunState :=
  ⟨Stats.init, 0, 0, env.initTable, env.initEtlRuns, 0⟩

/-- truthyStrOpt models Python truthiness of job_data.get(position_id):
false for None and for the empty string. -/
def truthyStrOpt : Option String → Bool
  | none => false
  | some s => !(s == "")

/-- processItem is the body of the per-item loop (lines 378-395): bump
processed, transform, count a None result as skipped, otherwise attempt
the upsert when the identifier is truthy and count the outcome. -/
def processItem (env : Env) (st : RunState) (item : JobItem) : RunState :=
  match parse_job_listing item with
  | none =>
      { st with stats := { st.stats with
          processed := st.stats.processed + 1
          skipped_non_chicago := st.stats.skipped_non_chicago + 1 } }
  | some job_data =>
      match job_data.position_id with
      | none =>
          { st with
            stats := { st.stats with
              processed := st.stats.processed + 1
              failed := st.stats.failed + 1 }
            chicago_jobs := st.chicago_jobs + 1 }
      | some pid =>
          if pid == "" then
            { st with
              stats := { st.stats with
                processed := st.stats.processed + 1
                failed := st.stats.failed + 1 }
              chicago_jobs := st.chicago_jobs + 1 }
          else if env.upsertFails st.upsertCalls then
            { st with
              stats := { st.stats with
                processed := st.stats.processed + 1
                failed := st.stats.failed + 1 }
              chicago_jobs := st.chicago_jobs + 1
              upsertCalls := st.upsertCalls + 1 }
          else
            { st with
              stats := { st.stats with
                processed := st.stats.processed + 1
                inserted := st.stats.inserted + 1 }
              chicago_jobs := st.chicago_jobs + 1
              table := upsertTable st.table job_data pid st.upsertCalls
              upsertCalls := st.upsertCalls + 1 }

/-- processPage folds processItem over one page's items. -/
def processPage (env : Env) (st : RunState) (items : List JobItem) : RunState :=
  items.foldl (processItem env) st

/-- runFrom is the while-page loop from the given page number with the
given number of page iterations remaining (run hardcodes max_pages = 5,
so the loop starts as runFrom env 1 5). -/
def runFrom (cfg : Config) (env : Env) (page : Nat) : Nat → RunState → RunState
  | 0, st => st
  | fuel + 1, st =>
      match (fetch_jobs_from_api_with_retry cfg (env.http page)).result with
      | none => st
      | some resp =>
          let items := resp.searchResultItems
          if items.isEmpty then st
          else
            let st := processPage env st items
            let st := { st with total_jobs := st.total_jobs + items.length }
            if resp.searchResultCountAll ≤ st.total_jobs then st
            else runFrom cfg env (page + 1) fuel st

/-- log_etl_run appends one etl_runs row built from the stats dict. -/
def log_etl_run (st : RunState) (status : String) : RunState :=
  { st with etlRuns := st.etlRuns ++
      [⟨st.stats.processed, st.stats.inserted, st.stats.updated, st.stats.failed,
        status, st.stats.error_message⟩] }

/-- runPipeline models a completed USAJobsETL.run: the paging loop over at
most five pages followed by the SUCCESS run-log write. -/
def runPipeline (cfg : Config) (env : Env) : RunState :=
  log_etl_run (runFrom cfg env 1 5 (initRunState env)) "SUCCESS"

/-- mainExit models main: 0 when run returned stats with a positive
inserted or processed count, 1 otherwise; none models run raising, which
main converts to 1. -/
def mainExit (outcome : Option Stats) : Nat :=
  match outcome with
  | some stats => if stats.inserted > 0 || stats.processed > 0 then 0 else 1
  | none => 1

/-! ## Helper lemmas for the fetch client -/

/-- backoff waits grow with the attempt index while the initial delay is
nonnegative. -/
lemma rateLimitWait_mono (cfg : Config) (hinit : 0 ≤ cfg.initialRetryDelay)
    (a : Nat) : rateLimitWait cfg a ≤ rateLimitWait cfg (a + 1) := by
  unfold rateLimitWait
  refine min_le_min ?_ le_rfl
  have h2 : (2 : Rat) ^ a ≤ 2 ^ (a + 1) :=
    pow_le_pow_right₀ (by norm_num) (Nat.le_succ a)
  exact mul_le_mul_of_nonneg_left h2 hinit

/-- fetchAux consumes at most its remaining iteration budget. -/
lemma fetchAux_attempts_le (cfg : Config) (oracle : Nat → HttpOutcome) :
    ∀ fuel attempt, (fetchAux cfg oracle attempt fuel).attempts ≤ fuel := by
  intro fuel
  induction fuel with
  | zero => intro attempt; simp [fetchAux]
  | succ n ih =>
      intro attempt
      unfold fetchAux
      cases oracle attempt with
      | success body => simp
      | rateLimited => simpa using Nat.succ_le_succ (ih (attempt + 1))
      | transportError =>
          by_cases h : n = 0
          · simp [h]
          · simpa [h] using Nat.succ_le_succ (ih (attempt + 1))

/-- backoffSeg cfg attempt n is the schedule of n consecutive clamped
exponential waits starting at the given attempt index. -/
def backoffSeg (cfg : Config) (attempt n : Nat) : List Rat :=
  (List.range n).map (fun i => min (cfg.initialRetryDelay * 2 ^ (attempt + i)) cfg.maxRetryDelay)

/-- one step of the schedule peels off the wait at the current attempt. -/
lemma backoffSeg_succ (cfg : Config) (attempt n : Nat) :
    backoffSeg cfg attempt (n + 1) =
      min (cfg.initialRetryDelay * 2 ^ attempt) cfg.maxRetryDelay ::
        backoffSeg cfg (attempt + 1) n := by
  unfold backoffSeg
  rw [List.range_succ_eq_map, List.map_cons, List.map_map]
  refine congrArg₂ _ (by simp) ?_
  apply List.map_congr_left
  intro i _
  have : attempt + (i + 1) = attempt + 1 + i := by omega
  simp [Function.comp, this]

/-- the recorded sleeps of the retry loop form an initial segment of the
clamped exponential schedule from the starting attempt. -/
lemma fetchAux_delays_eq (cfg : Config) (oracle : Nat → HttpOutcome) :
    ∀ fuel attempt, ∃ k, k ≤ fuel ∧
      (fetchAux cfg oracle attempt fuel).delays = backoffSeg cfg attempt k := by
  intro fuel
  induction fuel with
  | zero => intro attempt; exact ⟨0, le_rfl, by simp [fetchAux, backoffSeg]⟩
  | succ n ih =>
      intro attempt
      unfold fetchAux
      cases oracle attempt with
      | success body => exact ⟨0, Nat.zero_le _, by simp [backoffSeg]⟩
      | rateLimited =>
          obtain ⟨k, hk, hdel⟩ := ih (attempt + 1)
          exact ⟨k + 1, Nat.succ_le_succ hk, by
            simp only [backoffSeg_succ, hdel, rateLimitWait]⟩
      | transportError =>
          by_cases hn : n = 0
          · exact ⟨0, Nat.zero_le _, by simp [hn, backoffSeg]⟩
          · obtain ⟨k, hk, hdel⟩ := ih (attempt + 1)
            exact ⟨k + 1, Nat.succ_le_succ hk, by
              simp only [hn, if_false, backoffSeg_succ, hdel, apiErrorWait]⟩

/-- Claim C5: the delay before the retry at attempt index a is
min(initial * 2^a, max) — the delays list is exactly the clamped
exponential schedule indexed from attempt 0; the 429 schedule and the
generic-error schedule are the same function; the schedule is
non-decreasing; the attempt count is bounded by maxRetries. -/
theorem fetch_backoff_properties (cfg : Config) (oracle : Nat → HttpOutcome)
    (hinit : 0 ≤ cfg.initialRetryDelay) :
    (∀ a, rateLimitWait cfg a = min (cfg.initialRetryDelay * 2 ^ a) cfg.maxRetryDelay ∧
      rateLimitWait cfg a = apiErrorWait cfg a) ∧
    ((fetch_jobs_from_api_with_retry cfg oracle).delays =
      (List.range (fetch_jobs_from_api_with_retry cfg oracle).delays.length).map
        (fun a => min (cfg.initialRetryDelay * 2 ^ a) cfg.maxRetryDelay)) ∧
    (∀ a, rateLimitWait cfg a ≤ rateLimitWait cfg (a + 1)) ∧
    (fetch_jobs_from_api_with_retry cfg oracle).attempts ≤ cfg.maxRetries := by
  refine ⟨fun a => ⟨rfl, rfl⟩, ?_, rateLimitWait_mono cfg hinit, ?_⟩
  · obtain ⟨k, _, hdel⟩ := fetchAux_delays_eq cfg oracle cfg.maxRetries 0
    have hlen : (fetch_jobs_from_api_with_retry cfg oracle).delays.length = k := by
      simp [fetch_jobs_from_api_with_retry, hdel, backoffSeg]
    simp only [fetch_jobs_from_api_with_retry] at hdel hlen ⊢
    rw [hdel]
    simp [backoffSeg]
  · exact fetchAux_attempts_le cfg oracle cfg.maxRetries 0

/-- Witness for C5: the hypothesis holds and the attempt bound follows at the
default configuration against an always-rate-limited transport. -/
theorem fetch_backoff_properties_witness :
    (0 : Rat) ≤ (⟨3, 1, 60, false⟩ : Config).initialRetryDelay ∧
      (fetch_jobs_from_api_with_retry ⟨3, 1, 60, false⟩
        (fun _ => HttpOutcome.rateLimited)).attempts ≤ (⟨3, 1, 60, false⟩ : Config).maxRetries :=
  ⟨by norm_num,
    (fetch_backoff_properties ⟨3, 1, 60, false⟩ (fun _ => HttpOutcome.rateLimited)
      (by norm_num)).2.2.2⟩

/-- Claim C6: main returns the success indicator 0 exactly when the completed
run processed or inserted at least one record, and returns 1 when run
raised. -/
theorem main_exit_success_iff :
    (∀ s : Stats, mainExit (some s) = 0 ↔ (s.processed > 0 ∨ s.inserted > 0)) ∧
      mainExit none = 1 := by
  refine ⟨fun s => ?_, rfl⟩
  by_cases h1 : s.inserted > 0 <;> by_cases h2 : s.processed > 0 <;>
    simp [mainExit, h1, h2]

/-! ## Helper lemmas for the location filter -/

/-- the scan returns none exactly when no location matches. -/
lemma findChicago_eq_none (locs : List Location) :
    findChicago locs = none ↔ ∀ loc ∈ locs, locationMatches "chicago" loc = false := by
  induction locs with
  | nil => simp [findChicago]
  | cons l ls ih =>
      by_cases h : locationMatches "chicago" l = true
      · simp [findChicago, h]
      · simp only [Bool.not_eq_true] at h
        simp [findChicago, h, ih]

/-- a found location is a member of the list and matches. -/
lemma findChicago_mem {locs : List Location} {m : Location}
    (h : findChicago locs = some m) :
    m ∈ locs ∧ locationMatches "chicago" m = true := by
  induction locs with
  | nil => simp [findChicago] at h
  | cons l ls ih =>
      by_cases hl : locationMatches "chicago" l = true
      · simp only [findChicago, hl, if_true, Option.some.injEq] at h
        subst h
        exact ⟨List.mem_cons_self l ls, hl⟩
      · simp only [Bool.not_eq_true] at hl
        simp only [findChicago, hl, Bool.false_eq_true, if_false] at h
        obtain ⟨hm, hmatch⟩ := ih h
        exact ⟨List.mem_cons_of_mem l hm, hmatch⟩

/-- some matching location makes the scan succeed. -/
lemma findChicago_isSome_of_exists {locs : List Location}
    (h : ∃ loc ∈ locs, locationMatches "chicago" loc = true) :
    ∃ m, findChicago locs = some m := by
  cases hf : findChicago locs with
  | some m => exact ⟨m, rfl⟩
  | none =>
      rw [findChicago_eq_none] at hf
      obtain ⟨loc, hmem, hmatch⟩ := h
      rw [hf loc hmem] at hmatch
      cases hmatch

/-! ## Sample records shared by several witnesses -/

/-- chiLoc is a location naming Chicago. -/
def chiLoc : Location := ⟨some "Chicago, IL", some "Chicago, Illinois", some "IL"⟩

/-- denverLoc is a location that never mentions Chicago. -/
def denverLoc : Location := ⟨some "Denver", some "Denver, Colorado", some "CO"⟩

/-- denverDescr carries a single Denver location. -/
def denverDescr : Descriptor :=
  { Descriptor.empty with positionLocation := [denverLoc], positionTitle := some "Engineer" }

/-- denverItem is a raw listing located only in Denver. -/
def denverItem : JobItem := ⟨some "DEN-1", some denverDescr⟩

/-- chicagoDescr carries a Denver location followed by a Chicago one. -/
def chicagoDescr : Descriptor :=
  { Descriptor.empty with positionLocation := [denverLoc, chiLoc], positionTitle := some "Engineer" }

/-- chicagoItem is a raw listing that does include Chicago. -/
def chicagoItem : JobItem := ⟨some "CHI-1", some chicagoDescr⟩

/-- chiOnlyDescr carries a single Chicago location. -/
def chiOnlyDescr : Descriptor :=
  { Descriptor.empty with positionLocation := [chiLoc], positionTitle := some "Engineer" }

/-- chiOnlyItem is a raw listing located only in Chicago. -/
def chiOnlyItem : JobItem := ⟨some "CHI-2", some chiOnlyDescr⟩

/-! ## C1: location filter vs the configured target -/

/-- Counterexample for C1: with the configured target location Denver, a raw
listing whose only location has city Denver (so the configured target
substring occurs, case-insensitively) is still returned as Filtered
(None), and a listing with no location containing the substring denver is
still accepted — the filter compares against the literal chicago, not the
configured target. -/
theorem parse_target_counterexample :
    (denverDescr.positionLocation ≠ [] ∧
      (∃ loc ∈ denverDescr.positionLocation,
        strContains (lower (loc.cityName.getD "")) (lower "Denver") = true) ∧
      parse_job_listing denverItem = none) ∧
    ((∀ loc ∈ chiOnlyDescr.positionLocation,
        strContains (lower (loc.cityName.getD "")) (lower "Denver") = false ∧
        strContains (lower (loc.locationName.getD "")) (lower "Denver") = false) ∧
      (parse_job_listing chiOnlyItem).isSome = true) := by
  decide

/-- Claim C1 amended: with the target substring fixed to the literal chicago
(matched case-insensitively, as the filter lowercases both fields), a
non-empty location list with no matching entry yields Filtered (None),
and any listing with a matching entry yields a record whose
position_location contains the matching entry. -/
theorem parse_filter_correct (item : JobItem) :
    (((item.matchedObjectDescriptor.getD Descriptor.empty).positionLocation ≠ []) →
      (∀ loc ∈ (item.matchedObjectDescriptor.getD Descriptor.empty).positionLocation,
        locationMatches "chicago" loc = false) →
      parse_job_listing item = none) ∧
    ((∃ loc ∈ (item.matchedObjectDescriptor.getD Descriptor.empty).positionLocation,
        locationMatches "chicago" loc = true) →
      ∃ pj m, parse_job_listing item = some pj ∧
        m ∈ (item.matchedObjectDescriptor.getD Descriptor.empty).positionLocation ∧
        locationMatches "chicago" m = true ∧ pj.position_location = [m]) := by
  constructor
  · intro _ hall
    unfold parse_job_listing
    cases hemp : (item.matchedObjectDescriptor.getD Descriptor.empty).positionLocation.isEmpty
    · have hnone : findChicago
          (item.matchedObjectDescriptor.getD Descriptor.empty).positionLocation = none :=
        (findChicago_eq_none _).mpr hall
      simp [hemp, hnone]
    · simp [hemp]
  · intro hex
    obtain ⟨m, hm⟩ := findChicago_isSome_of_exists hex
    obtain ⟨hmem, hmatch⟩ := findChicago_mem hm
    have hne : (item.matchedObjectDescriptor.getD Descriptor.empty).positionLocation.isEmpty = false := by
      cases hl : (item.matchedObjectDescriptor.getD Descriptor.empty).positionLocation
      · rw [hl] at hmem; cases hmem
      · simp
    refine ⟨mkParsedJob item (item.matchedObjectDescriptor.getD Descriptor.empty) m, m,
      ?_, hmem, hmatch, rfl⟩
    simp [parse_job_listing, hne, hm]

/-- Witness for the amended C1: at the concrete Chicago listing the existence
hypothesis holds and the amended filter property produces the record. -/
theorem parse_filter_correct_witness :
    ∃ pj m, parse_job_listing chicagoItem = some pj ∧
      m ∈ (chicagoItem.matchedObjectDescriptor.getD Descriptor.empty).positionLocation ∧
      locationMatches "chicago" m = true ∧ pj.position_location = [m] :=
  (parse_filter_correct chicagoItem).2 (by decide)

/-! ## C8: the stored location list has exactly one element -/

/-- Claim C8: every record accepted by the transformer stores exactly one
location — the matched one — in position_location, never the full source
list. -/
theorem parse_single_location (item : JobItem) (pj : ParsedJob)
    (h : parse_job_listing item = some pj) :
    pj.position_location.length = 1 ∧
    ∃ m, pj.position_location = [m] ∧
      m ∈ (item.matchedObjectDescriptor.getD Descriptor.empty).positionLocation ∧
      locationMatches "chicago" m = true := by
  unfold parse_job_listing at h
  cases hemp : (item.matchedObjectDescriptor.getD Descriptor.empty).positionLocation.isEmpty
  · rw [hemp] at h
    simp only [Bool.false_eq_true, if_false] at h
    cases hf : findChicago (item.matchedObjectDescriptor.getD Descriptor.empty).positionLocation with
    | none => rw [hf] at h; cases h
    | some m =>
        rw [hf] at h
        obtain ⟨hmem, hmatch⟩ := findChicago_mem hf
        cases h
        exact ⟨rfl, m, rfl, hmem, hmatch⟩
  · rw [hemp] at h
    simp at h

/-- Witness for C8: the concrete Chicago listing yields a one-element
position_location. -/
theorem parse_single_location_witness :
    (mkParsedJob chicagoItem chicagoDescr chiLoc).position_location.length = 1 ∧
    ∃ m, (mkParsedJob chicagoItem chicagoDescr chiLoc).position_location = [m] ∧
      m ∈ (chicagoItem.matchedObjectDescriptor.getD Descriptor.empty).positionLocation ∧
      locationMatches "chicago" m = true :=
  parse_single_location chicagoItem (mkParsedJob chicagoItem chicagoDescr chiLoc) (by decide)

/-! ## C2: salary parse policy -/

/-- an accepted listing is exactly the assembled record for the first
matching location. -/
lemma parse_some_inv {item : JobItem} {pj : ParsedJob}
    (h : parse_job_listing item = some pj) :
    ∃ m, findChicago (item.matchedObjectDescriptor.getD Descriptor.empty).positionLocation
        = some m ∧
      pj = mkParsedJob item (item.matchedObjectDescriptor.getD Descriptor.empty) m := by
  unfold parse_job_listing at h
  cases hemp : (item.matchedObjectDescriptor.getD Descriptor.empty).positionLocation.isEmpty
  · rw [hemp] at h
    simp only [Bool.false_eq_true, if_false] at h
    cases hf : findChicago (item.matchedObjectDescriptor.getD Descriptor.empty).positionLocation with
    | none => rw [hf] at h; cases h
    | some m =>
        rw [hf] at h
        cases h
        exact ⟨m, rfl, rfl⟩
  · rw [hemp] at h
    simp at h

/-- remMissingFields is a non-empty remuneration dict with both range
fields absent. -/
def remMissingFields : Remuneration := ⟨none, none, some "PA", false⟩

/-- missingSalaryItem passes the filter and carries remMissingFields. -/
def missingSalaryItem : JobItem :=
  ⟨some "CHI-3", some { chiOnlyDescr with positionRemuneration := [remMissingFields] }⟩

/-- badMaxRem has a numeric minimum and a non-numeric maximum. -/
def badMaxRem : Remuneration :=
  ⟨some (RangeField.str "90000"), some (RangeField.str "Not specified"), some "PA", false⟩

/-- badMaxItem passes the filter and carries badMaxRem. -/
def badMaxItem : JobItem :=
  ⟨some "CHI-4", some { chiOnlyDescr with positionRemuneration := [badMaxRem] }⟩

/-- Counterexample for C2: a listing whose first remuneration entry is a
non-empty dict with both range fields missing is kept with salaries 0, not
null (the dict getter defaults the missing fields to 0); and a listing
whose maximum alone is non-numeric keeps the parsed minimum, so the two
salaries are not both null. -/
theorem salary_null_counterexample :
    (∃ pj, parse_job_listing missingSalaryItem = some pj ∧
      pj.min_salary = some 0 ∧ pj.max_salary = some 0) ∧
    (∃ pj, parse_job_listing badMaxItem = some pj ∧
      pj.min_salary = some 90000 ∧ pj.max_salary = none) := by
  decide

/-- Claim C2 amended: for every listing past the filter, both salaries are null
when the remuneration list is empty, when its first entry is an empty
dict, or when parsing the first entry's MinimumRange raises
(pyFloatInt = none); when the minimum parses but the maximum raises, the
minimum is kept and only the maximum is null; a missing range field in a
non-empty first entry yields 0, not null.  The embedding is total, so no
exception escapes. -/
theorem salary_parse_policy (item : JobItem) (pj : ParsedJob)
    (h : parse_job_listing item = some pj) :
    ((item.matchedObjectDescriptor.getD Descriptor.empty).positionRemuneration = [] →
      pj.min_salary = none ∧ pj.max_salary = none) ∧
    (∀ r, (item.matchedObjectDescriptor.getD Descriptor.empty).positionRemuneration.head?
        = some r → r.truthy = false → pj.min_salary = none ∧ pj.max_salary = none) ∧
    (∀ r, (item.matchedObjectDescriptor.getD Descriptor.empty).positionRemuneration.head?
        = some r → r.truthy = true → pyFloatInt r.minimumRange = none →
      pj.min_salary = none ∧ pj.max_salary = none) ∧
    (∀ r mn, (item.matchedObjectDescriptor.getD Descriptor.empty).positionRemuneration.head?
        = some r → r.truthy = true → pyFloatInt r.minimumRange = some mn →
      pyFloatInt r.maximumRange = none →
      pj.min_salary = some mn ∧ pj.max_salary = none) ∧
    (∀ r, (item.matchedObjectDescriptor.getD Descriptor.empty).positionRemuneration.head?
        = some r → r.truthy = true → r.minimumRange = none → pj.min_salary = some 0) := by
  obtain ⟨m, hm, rfl⟩ := parse_some_inv h
  refine ⟨?_, ?_, ?_, ?_, ?_⟩
  · intro hrems
    simp [mkParsedJob, hrems, salaryOf]
  · intro r hr ht
    simp [mkParsedJob, hr, salaryOf, ht]
  · intro r hr ht hmin
    simp [mkParsedJob, hr, salaryOf, ht, hmin]
  · intro r mn hr ht hmin hmax
    simp [mkParsedJob, hr, salaryOf, ht, hmin, hmax]
  · intro r hr ht hmin
    have h0 : pyFloatInt r.minimumRange = some 0 := by simp [hmin, pyFloatInt]
    cases hmax : pyFloatInt r.maximumRange with
    | none => simp [mkParsedJob, hr, salaryOf, ht, h0, hmax]
    | some mx => simp [mkParsedJob, hr, salaryOf, ht, h0, hmax]

/-- Witness for the amended C2: at a concrete Chicago listing with an empty
remuneration list, the empty-list hypothesis is discharged and both
salaries come out null. -/
theorem salary_parse_policy_witness :
    (mkParsedJob chiOnlyItem chiOnlyDescr chiLoc).min_salary = none ∧
      (mkParsedJob chiOnlyItem chiOnlyDescr chiLoc).max_salary = none :=
  (salary_parse_policy chiOnlyItem (mkParsedJob chiOnlyItem chiOnlyDescr chiLoc)
    (by decide)).1 (by decide)

/-! ## Helper lemmas for the upsert -/

/-- the conflict update keeps the primary key. -/
lemma applyConflictUpdate_pid (old : Row) (j : ParsedJob) (t : Nat) :
    (applyConflictUpdate old j t).position_id = old.position_id := rfl

/-- the update branch leaves the column of primary keys unchanged. -/
lemma pids_update (tbl : List Row) (j : ParsedJob) (pid : String) (t : Nat) :
    (tbl.map (fun r => if r.position_id == pid then applyConflictUpdate r j t else r)).map
        Row.position_id = tbl.map Row.position_id := by
  rw [List.map_map]
  apply List.map_congr_left
  intro r _
  by_cases h : r.position_id == pid <;> simp [Function.comp, h, applyConflictUpdate_pid]

/-- on a present key the upsert is the update branch. -/
lemma upsertTable_conflict (tbl : List Row) (j : ParsedJob) (pid : String) (t : Nat)
    (hany : tbl.any (fun r => r.position_id == pid) = true) :
    upsertTable tbl j pid t =
      tbl.map (fun r => if r.position_id == pid then applyConflictUpdate r j t else r) := by
  unfold upsertTable
  rw [if_pos hany]

/-- on an absent key the upsert is the insert branch. -/
lemma upsertTable_insert (tbl : List Row) (j : ParsedJob) (pid : String) (t : Nat)
    (hany : tbl.any (fun r => r.position_id == pid) = false) :
    upsertTable tbl j pid t = tbl ++ [rowOfJob j pid t] := by
  unfold upsertTable
  rw [hany]
  simp

/-- after an upsert the key is present. -/
lemma pid_mem_upsert (tbl : List Row) (j : ParsedJob) (pid : String) (t : Nat) :
    pid ∈ (upsertTable tbl j pid t).map Row.position_id := by
  cases h : tbl.any (fun r => r.position_id == pid)
  · rw [upsertTable_insert tbl j pid t h]
    rw [List.map_append]
    simp [rowOfJob]
  · rw [upsertTable_conflict tbl j pid t h]
    rw [pids_update]
    obtain ⟨r, hr, he⟩ := List.any_eq_true.mp h
    exact List.mem_map.mpr ⟨r, hr, by simpa using he⟩

/-- an upsert preserves key uniqueness. -/
lemma pids_nodup_upsert (tbl : List Row) (j : ParsedJob) (pid : String) (t : Nat)
    (hnd : (tbl.map Row.position_id).Nodup) :
    ((upsertTable tbl j pid t).map Row.position_id).Nodup := by
  cases h : tbl.any (fun r => r.position_id == pid)
  case true =>
    rw [upsertTable_conflict tbl j pid t h]
    rw [pids_update]
    exact hnd
  case false =>
    rw [upsertTable_insert tbl j pid t h]
    rw [List.map_append]
    have hnot : pid ∉ tbl.map Row.position_id := by
      intro hmem
      obtain ⟨r, hr, he⟩ := List.mem_map.mp hmem
      have htrue : tbl.any (fun r => r.position_id == pid) = true :=
        List.any_eq_true.mpr ⟨r, hr, by simp [he]⟩
      rw [h] at htrue
      cases htrue
    simp only [List.map_cons, List.map_nil, rowOfJob]
    exact List.Nodup.append hnd (List.nodup_singleton pid)
      (by simpa [List.disjoint_singleton] using hnot)

/-- a table whose keys are unique holds at most one row per key, hence
exactly one when the key is present. -/
lemma filter_pid_length (tbl : List Row) (pid : String)
    (hnd : (tbl.map Row.position_id).Nodup)
    (hmem : pid ∈ tbl.map Row.position_id) :
    (tbl.filter (fun r => r.position_id == pid)).length = 1 := by
  have hcount : (tbl.map Row.position_id).count pid = 1 :=
    List.count_eq_one_of_mem hnd hmem
  have : (tbl.map Row.position_id).count pid =
      (tbl.filter (fun r => r.position_id == pid)).length := by
    rw [List.count, List.countP_map, List.countP_eq_length_filter]
    rfl
  rw [this] at hcount
  exact hcount

/-- rows selected by key out of the update branch carry the new mutable
fields. -/
lemma mem_update_branch {tbl : List Row} {j : ParsedJob} {pid : String} {t : Nat} {r : Row}
    (hr : r ∈ tbl.map (fun r => if r.position_id == pid then applyConflictUpdate r j t else r))
    (hpid : r.position_id = pid) :
    ∃ old ∈ tbl, old.position_id = pid ∧ r = applyConflictUpdate old j t := by
  obtain ⟨old, hold, he⟩ := List.mem_map.mp hr
  by_cases h : old.position_id == pid
  · rw [if_pos h] at he
    exact ⟨old, hold, by simpa using h, he.symm⟩
  · rw [if_neg h] at he
    subst he
    simp [hpid] at h

/-! ## C4: idempotent upsert -/

/-- Claim C4: starting from any table with unique keys, two upserts under the
same position_id leave exactly one row under that key, its mutable fields
are the second call's values, and the second call adds no row. -/
theorem upsert_idempotent (tbl : List Row) (j1 j2 : ParsedJob) (pid : String) (t1 t2 : Nat)
    (hnd : (tbl.map Row.position_id).Nodup) :
    (((upsertTable (upsertTable tbl j1 pid t1) j2 pid t2).filter
        (fun r => r.position_id == pid)).length = 1) ∧
    (∀ r ∈ upsertTable (upsertTable tbl j1 pid t1) j2 pid t2, r.position_id = pid →
      r.position_title = j2.position_title ∧ r.position_uri = j2.position_uri ∧
      r.position_location = j2.position_location ∧ r.city_name = j2.city_name ∧
      r.state_code = j2.state_code ∧ r.min_salary = j2.min_salary ∧
      r.max_salary = j2.max_salary ∧
      r.application_close_date = j2.application_close_date ∧
      r.updated_at = t2 ∧ r.etl_timestamp = t2) ∧
    ((upsertTable (upsertTable tbl j1 pid t1) j2 pid t2).length =
      (upsertTable tbl j1 pid t1).length) := by
  have hmem1 : pid ∈ (upsertTable tbl j1 pid t1).map Row.position_id :=
    pid_mem_upsert tbl j1 pid t1
  have hnd1 : ((upsertTable tbl j1 pid t1).map Row.position_id).Nodup :=
    pids_nodup_upsert tbl j1 pid t1 hnd
  have hany : (upsertTable tbl j1 pid t1).any (fun r => r.position_id == pid) = true := by
    obtain ⟨r, hr, he⟩ := List.mem_map.mp hmem1
    exact List.any_eq_true.mpr ⟨r, hr, by simp [he]⟩
  have hbranch : upsertTable (upsertTable tbl j1 pid t1) j2 pid t2 =
      (upsertTable tbl j1 pid t1).map
        (fun r => if r.position_id == pid then applyConflictUpdate r j2 t2 else r) :=
    upsertTable_conflict _ j2 pid t2 hany
  refine ⟨?_, ?_, ?_⟩
  · apply filter_pid_length
    · rw [hbranch, pids_update]
      exact hnd1
    · rw [hbranch, pids_update]
      exact hmem1
  · intro r hr hpid
    rw [hbranch] at hr
    obtain ⟨old, _, _, rfl⟩ := mem_update_branch hr hpid
    exact ⟨rfl, rfl, rfl, rfl, rfl, rfl, rfl, rfl, rfl, rfl⟩
  · rw [hbranch, List.length_map]

/-- pjA is a concrete normalized record. -/
def pjA : ParsedJob :=
  ⟨some "X1", some "Title A", none, [chiLoc], "Chicago", "IL", some "OrgA", some "DeptA",
    [], some 1, some 2, none, none, none, none, "summary", [], []⟩

/-- pjB is pjA with different mutable fields. -/
def pjB : ParsedJob :=
  { pjA with position_title := some "Title B", min_salary := some 3 }

/-- Witness for C4: on the empty table the uniqueness hypothesis holds and two
upserts of X1 leave exactly one X1 row bearing the second title. -/
theorem upsert_idempotent_witness :
    (((upsertTable (upsertTable [] pjA "X1" 0) pjB "X1" 1).filter
      (fun r => r.position_id == "X1")).length = 1) ∧
    ∀ r ∈ upsertTable (upsertTable [] pjA "X1" 0) pjB "X1" 1, r.position_id = "X1" →
      r.position_title = some "Title B" :=
  ⟨(upsert_idempotent [] pjA pjB "X1" 0 1 (by decide)).1,
    fun r hr hpid => ((upsert_idempotent [] pjA pjB "X1" 0 1 (by decide)).2.1 r hr hpid).1⟩

/-! ## C9: conflict-update frame -/

/-- Claim C9: on a key conflict, the stored row keeps organization_name,
department_name, position_remuneration, the start/end/publication dates,
job_summary, job_category and job_grade from the previously stored row,
while title, URI, location, city/state, the salary bounds, the close date
and the two housekeeping timestamps are replaced. -/
theorem upsert_conflict_frame (tbl : List Row) (old : Row) (j : ParsedJob) (pid : String)
    (t : Nat) (hnd : (tbl.map Row.position_id).Nodup) (hold : old ∈ tbl)
    (hpid : old.position_id = pid) :
    ∀ r ∈ upsertTable tbl j pid t, r.position_id = pid →
      r.organization_name = old.organization_name ∧
      r.department_name = old.department_name ∧
      r.position_remuneration = old.position_remuneration ∧
      r.position_start_date = old.position_start_date ∧
      r.position_end_date = old.position_end_date ∧
      r.publication_start_date = old.publication_start_date ∧
      r.job_summary = old.job_summary ∧
      r.job_category = old.job_category ∧
      r.job_grade = old.job_grade ∧
      r.position_title = j.position_title ∧ r.position_uri = j.position_uri ∧
      r.position_location = j.position_location ∧ r.city_name = j.city_name ∧
      r.state_code = j.state_code ∧ r.min_salary = j.min_salary ∧
      r.max_salary = j.max_salary ∧
      r.application_close_date = j.application_close_date ∧
      r.updated_at = t ∧ r.etl_timestamp = t := by
  intro r hr hrpid
  have hany : tbl.any (fun r => r.position_id == pid) = true :=
    List.any_eq_true.mpr ⟨old, hold, by simp [hpid]⟩
  rw [upsertTable, if_pos hany] at hr
  obtain ⟨o, ho, hopid, rfl⟩ := mem_update_branch hr hrpid
  have : o = old := by
    have hinj := List.inj_on_of_nodup_map hnd
    exact hinj ho hold (by rw [hopid, hpid])
  subst this
  exact ⟨rfl, rfl, rfl, rfl, rfl, rfl, rfl, rfl, rfl, rfl, rfl, rfl, rfl, rfl, rfl, rfl,
    rfl, rfl, rfl⟩

/-- Witness for C9: re-ingesting X1 with new mutable fields keeps OrgA but
takes the new title. -/
theorem upsert_conflict_frame_witness :
    (applyConflictUpdate (rowOfJob pjA "X1" 0) pjB 1).organization_name = some "OrgA" ∧
      (applyConflictUpdate (rowOfJob pjA "X1" 0) pjB 1).position_title = some "Title B" := by
  have h := upsert_conflict_frame [rowOfJob pjA "X1" 0] (rowOfJob pjA "X1" 0) pjB "X1" 1
    (by decide) (by decide) rfl (applyConflictUpdate (rowOfJob pjA "X1" 0) pjB 1)
    (by decide) rfl
  exact ⟨by rw [h.1]; rfl, h.2.2.2.2.2.2.2.2.2.1⟩

/-! ## Run accounting invariant -/

/-- StatsInv is the accounting invariant maintained by the item loop:
processed splits into skipped plus accepted, accepted splits into
inserted plus failed, and the updated counter is never touched. -/
def StatsInv (st : RunState) : Prop :=
  st.stats.processed = st.stats.skipped_non_chicago + st.chicago_jobs ∧
  st.chicago_jobs = st.stats.inserted + st.stats.failed ∧
  st.stats.updated = 0

/-- one item preserves the accounting invariant. -/
lemma processItem_inv (env : Env) (st : RunState) (item : JobItem)
    (h : StatsInv st) : StatsInv (processItem env st item) := by
  obtain ⟨h1, h2, h3⟩ := h
  unfold StatsInv processItem
  repeat' split
  all_goals refine ⟨?_, ?_, ?_⟩
  all_goals simp
  all_goals omega

/-- a page preserves the accounting invariant. -/
lemma processPage_inv (env : Env) (items : List JobItem) :
    ∀ st, StatsInv st → StatsInv (processPage env st items) := by
  induction items with
  | nil => intro st h; exact h
  | cons item rest ih =>
      intro st h
      exact ih (processItem env st item) (processItem_inv env st item h)

/-- the paging loop preserves the accounting invariant. -/
lemma runFrom_inv (cfg : Config) (env : Env) :
    ∀ fuel page st, StatsInv st → StatsInv (runFrom cfg env page fuel st) := by
  intro fuel
  induction fuel with
  | zero => intro page st h; exact h
  | succ n ih =>
      intro page st h
      unfold runFrom
      cases (fetch_jobs_from_api_with_retry cfg (env.http page)).result with
      | none => exact h
      | some resp =>
          by_cases hemp : resp.searchResultItems.isEmpty = true
          · simp only [hemp, if_true]
            exact h
          · simp only [hemp, if_false]
            have hpage := processPage_inv env resp.searchResultItems st h
            by_cases hdone : resp.searchResultCountAll ≤
                (processPage env st resp.searchResultItems).total_jobs +
                  resp.searchResultItems.length
            · simp only [hdone, if_true]
              exact ⟨hpage.1, hpage.2.1, hpage.2.2⟩
            · simp only [hdone, if_false]
              exact ih (page + 1) _ ⟨hpage.1, hpage.2.1, hpage.2.2⟩

/-- the log step does not touch the stats. -/
lemma log_etl_run_stats (st : RunState) (status : String) :
    (log_etl_run st status).stats = st.stats := rfl

/-- Claim C3: for every completed run the statistics satisfy
processed = filtered + accepted and accepted = inserted + failed, and a
record whose identifier is missing after transform is counted as failed
and leaves the table and the upsert-call counter untouched. -/
theorem run_accounting (cfg : Config) (env : Env) :
    ((runPipeline cfg env).stats.processed =
      (runPipeline cfg env).stats.skipped_non_chicago + (runPipeline cfg env).chicago_jobs ∧
     (runPipeline cfg env).chicago_jobs =
      (runPipeline cfg env).stats.inserted + (runPipeline cfg env).stats.failed) ∧
    (∀ st item pj, parse_job_listing item = some pj →
      truthyStrOpt pj.position_id = false →
      processItem env st item =
        { st with
          stats := { st.stats with
            processed := st.stats.processed + 1
            failed := st.stats.failed + 1 }
          chicago_jobs := st.chicago_jobs + 1 }) := by
  constructor
  · have hinit : StatsInv (initRunState env) := ⟨rfl, rfl, rfl⟩
    have hfin := runFrom_inv cfg env 5 1 (initRunState env) hinit
    have h1 := hfin.1
    have h2 := hfin.2.1
    exact ⟨by simpa [runPipeline, log_etl_run] using h1,
      by simpa [runPipeline, log_etl_run] using h2⟩
  · intro st item pj hp htr
    simp only [processItem, hp]
    cases hpid : pj.position_id with
    | none => rfl
    | some pid =>
        rw [hpid] at htr
        simp only [truthyStrOpt] at htr
        have heq : (pid == "") = true := by
          cases h : (pid == "") <;> simp [h] at htr ⊢
        simp [heq]

/-- noIdItem is a Chicago listing whose MatchedObjectId is absent. -/
def noIdItem : JobItem := ⟨none, some chiOnlyDescr⟩

/-- env0 is an environment with no reachable pages let alone store errors. -/
def env0 : Env := ⟨fun _ _ => HttpOutcome.transportError, fun _ => false, [], []⟩

/-- Witness for C3: at a concrete listing that parses but has no identifier,
the hypotheses are discharged and the item is counted as failed without a
store write. -/
theorem run_accounting_witness :
    processItem env0 (initRunState env0) noIdItem =
      { initRunState env0 with
        stats := { (initRunState env0).stats with
          processed := (initRunState env0).stats.processed + 1
          failed := (initRunState env0).stats.failed + 1 }
        chicago_jobs := (initRunState env0).chicago_jobs + 1 } :=
  (run_accounting ⟨3, 1, 60, false⟩ env0).2 (initRunState env0) noIdItem
    (mkParsedJob noIdItem chiOnlyDescr chiLoc) (by decide) (by decide)

/-! ## C10: the updated counter is dead -/

/-- items never touch the run-log table. -/
lemma processItem_etlRuns (env : Env) (st : RunState) (item : JobItem) :
    (processItem env st item).etlRuns = st.etlRuns := by
  unfold processItem
  repeat' split
  all_goals rfl

/-- pages never touch the run-log table. -/
lemma processPage_etlRuns (env : Env) (items : List JobItem) :
    ∀ st, (processPage env st items).etlRuns = st.etlRuns := by
  induction items with
  | nil => intro st; rfl
  | cons item rest ih =>
      intro st
      calc (processPage env (processItem env st item) rest).etlRuns
          = (processItem env st item).etlRuns := ih _
        _ = st.etlRuns := processItem_etlRuns env st item

/-- the paging loop never touches the run-log table. -/
lemma runFrom_etlRuns (cfg : Config) (env : Env) :
    ∀ fuel page st, (runFrom cfg env page fuel st).etlRuns = st.etlRuns := by
  intro fuel
  induction fuel with
  | zero => intro page st; rfl
  | succ n ih =>
      intro page st
      unfold runFrom
      cases (fetch_jobs_from_api_with_retry cfg (env.http page)).result with
      | none => rfl
      | some resp =>
          by_cases hemp : resp.searchResultItems.isEmpty = true
          · simp [hemp]
          · by_cases hdone : resp.searchResultCountAll ≤
                (processPage env st resp.searchResultItems).total_jobs +
                  resp.searchResultItems.length
            · simp [hemp, hdone, processPage_etlRuns]
            · simp only [hemp, Bool.false_eq_true, if_false, hdone]
              rw [ih]
              exact processPage_etlRuns env resp.searchResultItems st

/-- Claim C10: the updated counter stays 0 for every run, the run-log row
records records_updated = 0, and a successful upsert increments the
inserted counter whether the store operation was a fresh insert or a
conflict update. -/
theorem run_updated_always_zero (cfg : Config) (env : Env) :
    (runPipeline cfg env).stats.updated = 0 ∧
    (∃ row, (runPipeline cfg env).etlRuns = env.initEtlRuns ++ [row] ∧
      row.records_updated = 0 ∧
      row.records_inserted = (runPipeline cfg env).stats.inserted ∧
      row.records_processed = (runPipeline cfg env).stats.processed) ∧
    (∀ st item pj pid, parse_job_listing item = some pj →
      pj.position_id = some pid → (pid == "") = false →
      env.upsertFails st.upsertCalls = false →
      processItem env st item =
        { st with
          stats := { st.stats with
            processed := st.stats.processed + 1
            inserted := st.stats.inserted + 1 }
          chicago_jobs := st.chicago_jobs + 1
          table := upsertTable st.table pj pid st.upsertCalls
          upsertCalls := st.upsertCalls + 1 }) := by
  have hinit : StatsInv (initRunState env) := ⟨rfl, rfl, rfl⟩
  have hfin := runFrom_inv cfg env 5 1 (initRunState env) hinit
  have hupd : (runFrom cfg env 1 5 (initRunState env)).stats.updated = 0 := hfin.2.2
  refine ⟨by simpa [runPipeline, log_etl_run] using hupd, ?_, ?_⟩
  · refine ⟨⟨(runFrom cfg env 1 5 (initRunState env)).stats.processed,
      (runFrom cfg env 1 5 (initRunState env)).stats.inserted,
      (runFrom cfg env 1 5 (initRunState env)).stats.updated,
      (runFrom cfg env 1 5 (initRunState env)).stats.failed,
      "SUCCESS", (runFrom cfg env 1 5 (initRunState env)).stats.error_message⟩, ?_, hupd, rfl, rfl⟩
    show (log_etl_run (runFrom cfg env 1 5 (initRunState env)) "SUCCESS").etlRuns = _
    unfold log_etl_run
    rw [runFrom_etlRuns]
    rfl
  · intro st item pj pid hp hpid hemp hok
    simp only [processItem, hp, hpid, hemp, Bool.false_eq_true, if_false, hok]

/-- Witness for C10: at a concrete state whose table already holds CHI-2, a
successful conflict-update upsert still increments inserted. -/
theorem run_updated_always_zero_witness :
    processItem env0
      { initRunState env0 with
        table := [rowOfJob (mkParsedJob chiOnlyItem chiOnlyDescr chiLoc) "CHI-2" 0] }
      chiOnlyItem =
    { initRunState env0 with
      stats := { (initRunState env0).stats with
        processed := (initRunState env0).stats.processed + 1
        inserted := (initRunState env0).stats.inserted + 1 }
      chicago_jobs := (initRunState env0).chicago_jobs + 1
      table := upsertTable
        [rowOfJob (mkParsedJob chiOnlyItem chiOnlyDescr chiLoc) "CHI-2" 0]
        (mkParsedJob chiOnlyItem chiOnlyDescr chiLoc) "CHI-2" 0
      upsertCalls := 1 } :=
  (run_updated_always_zero ⟨3, 1, 60, false⟩ env0).2.2
    { initRunState env0 with
      table := [rowOfJob (mkParsedJob chiOnlyItem chiOnlyDescr chiLoc) "CHI-2" 0] }
    chiOnlyItem (mkParsedJob chiOnlyItem chiOnlyDescr chiLoc) "CHI-2"
    (by decide) (by decide) (by decide) (by decide)

/-! ## C7: the dry-run flag suppresses nothing -/

/-- dryEnv serves one page holding one Chicago listing and a store that
never errors. -/
def dryEnv : Env :=
  ⟨fun page _ => if page = 1 then HttpOutcome.success ⟨[chiOnlyItem], 1⟩
    else HttpOutcome.transportError,
   fun _ => false, [], []⟩

/-- Claim C7: with DRY_RUN_MODE set, the run still writes to the store — the
flag is defined in Config but never consulted, so the job_listings table
changes and an insert is counted. -/
theorem dry_run_not_suppressed :
    (runPipeline ⟨3, 1, 60, true⟩ dryEnv).table ≠ dryEnv.initTable ∧
    (runPipeline ⟨3, 1, 60, true⟩ dryEnv).stats.inserted = 1 := by
  decide

end UsaJobs
